import Mathlib

/-!
Verification of `scripts/extract_cover_colors.py`.

The script extracts a dominant "spine" color from book cover images and
updates a JSON catalog of book records.  We embed the pure computational
core (color scoring, quantization, filtering, candidate selection, hex
formatting) and the catalog-updating loop, modelling image decoding as a
list of RGB pixel triples and network extraction as a function returning
an `Except` value.
-/

namespace ExtractCoverColors

/-- An RGB pixel or color: three channel values (nominally bytes 0–255). -/
abbrev RGB := ℕ × ℕ × ℕ

/-- Python `colorsys.rgb_to_hsv`, restricted to the saturation and value
components (hue is unused by the script).  Inputs are the channel values
scaled into `[0,1]`.  `colorsys` returns `s = 0` when `minc == maxc`,
otherwise `s = (maxc - minc) / maxc`, and `v = maxc`. -/
def rgb_to_hsv_sv (r g b : ℚ) : ℚ × ℚ :=
  let maxc := max (max r g) b
  let minc := min (min r g) b
  if minc = maxc then (0, maxc) else ((maxc - minc) / maxc, maxc)

/-- The line `r, g, b = [c / 255.0 for c in rgb]` of `color_score`. -/
def pixelToQ (p : RGB) : ℚ × ℚ × ℚ :=
  ((p.1 : ℚ) / 255, (p.2.1 : ℚ) / 255, (p.2.2 : ℚ) / 255)

/-- Saturation `s` computed by `color_score` for a pixel. -/
def hsv_s (p : RGB) : ℚ :=
  (rgb_to_hsv_sv (pixelToQ p).1 (pixelToQ p).2.1 (pixelToQ p).2.2).1

/-- Value `v` computed by `color_score` for a pixel. -/
def hsv_v (p : RGB) : ℚ :=
  (rgb_to_hsv_sv (pixelToQ p).1 (pixelToQ p).2.1 (pixelToQ p).2.2).2

/-- The brightness contribution of `color_score`:
`max(1.0 - abs(v - 0.45) * 2, 0)` (the `bright_score` line together with
the `max(bright_score, 0)` in the return expression). -/
def brightness_term (v : ℚ) : ℚ := max (1 - |v - 45/100| * 2) 0

/-- `color_score(rgb)`: `sat_score * 0.7 + max(bright_score, 0) * 0.3`. -/
def color_score (p : RGB) : ℚ :=
  hsv_s p * (7/10) + brightness_term (hsv_v p) * (3/10)

/-- One channel of `bucket`: `c // 32 * 32 + 16`. -/
def bucketChannel (c : ℕ) : ℕ := c / 32 * 32 + 16

/-- `bucket(pixel)`: quantize each channel into one of 8 coarse bins. -/
def bucket (p : RGB) : RGB :=
  (bucketChannel p.1, bucketChannel p.2.1, bucketChannel p.2.2)

/-- Channel sum of a color, as used in the near-black/near-white filter. -/
def sumRGB (p : RGB) : ℕ := p.1 + p.2.1 + p.2.2

/-- The filter predicate `80 < sum(p) < 660` from `get_dominant_color`. -/
def spineFilter (p : RGB) : Bool :=
  decide (80 < sumRGB p) && decide (sumRGB p < 660)

/-- Helper for `dedupFirst`: keep each element not seen before, threading
the set of already-seen elements. -/
def dedupFirstAux (seen : List RGB) : List RGB → List RGB
  | [] => []
  | x :: xs =>
    if x ∈ seen then dedupFirstAux seen xs
    else x :: dedupFirstAux (x :: seen) xs

/-- First occurrences of each distinct element, in encounter order: the
key order of Python's `Counter` (a dict keyed in insertion order). -/
def dedupFirst (l : List RGB) : List RGB := dedupFirstAux [] l

/-- Insert `x` into a list already sorted by descending `cnt`, placing it
before the first element of equal or smaller count (stability: among equal
counts, earlier-encountered keys stay first). -/
def insertByCountDesc (cnt : RGB → ℕ) (x : RGB) : List RGB → List RGB
  | [] => [x]
  | y :: ys => if cnt x < cnt y then y :: insertByCountDesc cnt x ys else x :: y :: ys

/-- Stable sort by descending count, as performed by
`Counter.most_common` (CPython sorts descending by count, stably, so ties
keep first-insertion order). -/
def sortByCountDesc (cnt : RGB → ℕ) : List RGB → List RGB
  | [] => []
  | x :: xs => insertByCountDesc cnt x (sortByCountDesc cnt xs)

/-- `Counter(l).most_common(n)`: the `n` most frequent elements of `l`,
most frequent first, ties broken by first-encounter order. -/
def mostCommon (l : List RGB) (n : ℕ) : List RGB :=
  (sortByCountDesc (fun x => l.count x) (dedupFirst l)).take n

/-- The list the `Counter` is built from in `get_dominant_color`: all
pixels bucketed, near-black/near-white buckets filtered out, falling back
to the unfiltered bucketed list when the filter removes everything
(`if not filtered: filtered = bucketed`). -/
def chosenBuckets (pixels : List RGB) : List RGB :=
  let bucketed := pixels.map bucket
  let filtered := bucketed.filter spineFilter
  if filtered.isEmpty then bucketed else filtered

/-- `top_colors = [color for color, _ in counter.most_common(8)]`. -/
def topColors (pixels : List RGB) : List RGB :=
  mostCommon (chosenBuckets pixels) 8

/-- Python `max(candidates, key=color_score)`: the first element attaining
the maximal score (later elements replace the current best only on a
strictly greater key).  `none` on the empty list (where Python raises). -/
def maxByScore : List RGB → Option RGB
  | [] => none
  | x :: xs =>
    some (xs.foldl (fun b y => if color_score b < color_score y then y else b) x)

/-- A lowercase hexadecimal digit character for `k < 16`. -/
def hexDigit (k : ℕ) : Char :=
  if k < 10 then Char.ofNat (48 + k) else Char.ofNat (87 + k)

/-- The two characters produced by the format spec `02x` for a byte-range
value `n < 256` (the only values the script formats: bucket midpoints). -/
def byteHexChars (n : ℕ) : List Char := [hexDigit (n / 16), hexDigit (n % 16)]

/-- The return expression of the extractor:
a hash sign followed by each channel formatted with `02x`, lowercase. -/
def toHexColor (p : RGB) : String :=
  String.mk ('#' :: (byteHexChars p.1 ++ byteHexChars p.2.1 ++ byteHexChars p.2.2))

/-- The pure core of `get_dominant_color`, applied to the decoded, resized
80x80 pixel grid: bucket, filter with fallback, take the 8 most common,
pick the best-scoring candidate and format it as hex.  Returns `none`
exactly when the pixel list is empty (Python would raise there). -/
def get_dominant_color (pixels : List RGB) : Option String :=
  (maxByScore (topColors pixels)).map toHexColor

/-- Extraction viewed as a fallible call, as the catalog updater sees it:
the successful hex string, or an error (in Python, a raised exception). -/
def extractFromImage (pixels : List RGB) : Except String String :=
  match get_dominant_color pixels with
  | some s => Except.ok s
  | none => Except.error "empty image"

/-- A book record: a finite mapping of named fields, modelled as a partial
function from field names to (string) values.  Fields beyond `title`,
`image_url` and `cover_color` are opaque and must pass through. -/
abbrev Book := String → Option String

/-- Python `book["cover_color"] = color`: update one field of a record. -/
def setField (b : Book) (k v : String) : Book :=
  fun q => if q = k then some v else b q

/-- The body of the per-record loop in `main`: skip when
`book.get("image_url")` is missing or empty (Python `if not url`);
otherwise call the extractor inside `try`, setting `cover_color` and
counting the record as updated on success, and leaving the record
untouched when any exception is caught.  The error type `ε` is abstract:
the handler is `except Exception`, so every extraction error is caught. -/
def stepBook {ε : Type} (extract : String → Except ε String) (b : Book) :
    Book × Bool :=
  match b "image_url" with
  | none => (b, false)
  | some url =>
    if url = "" then (b, false)
    else
      match extract url with
      | Except.ok c => (setField b "cover_color" c, true)
      | Except.error _ => (b, false)

/-- Whether the loop counts this record as updated. -/
def recordUpdated {ε : Type} (extract : String → Except ε String) (b : Book) :
    Bool :=
  (stepBook extract b).2

/-- The loop of `main` over the catalog: returns the mutated record list
(written back to `books.json`, in order) and the final `updated` count. -/
def runUpdater {ε : Type} (extract : String → Except ε String) :
    List Book → List Book × ℕ
  | [] => ([], 0)
  | b :: rest =>
    let s := stepBook extract b
    let r := runUpdater extract rest
    (s.1 :: r.1, (if s.2 then 1 else 0) + r.2)

/-! Basic facts about the brightness term. -/

lemma brightness_term_of_le (v : ℚ) (h0 : 0 ≤ v) (h : v ≤ 45/100) :
    brightness_term v = 1/10 + 2 * v := by
  unfold brightness_term
  rw [abs_of_nonpos (by linarith), max_eq_left (by linarith)]
  ring

lemma brightness_term_of_mid (v : ℚ) (h : 45/100 ≤ v) (h2 : v ≤ 19/20) :
    brightness_term v = 19/10 - 2 * v := by
  unfold brightness_term
  rw [abs_of_nonneg (by linarith), max_eq_left (by linarith)]
  ring

lemma brightness_term_of_ge (v : ℚ) (h : 19/20 ≤ v) :
    brightness_term v = 0 := by
  unfold brightness_term
  rw [abs_of_nonneg (by linarith), max_eq_right (by linarith)]

lemma hsv_v_black : hsv_v (0, 0, 0) = 0 := by
  simp [hsv_v, rgb_to_hsv_sv, pixelToQ]

lemma hsv_s_black : hsv_s (0, 0, 0) = 0 := by
  simp [hsv_s, rgb_to_hsv_sv, pixelToQ]

/-- C1 counterexample: the claim asserts `brightness_term = 0` at `v = 0`
and at every `v ≥ 0.9`, but the code yields `0.1` at both `v = 0` and
`v = 0.9` (the term only vanishes from `v = 0.95` on); consequently
`color_score (0,0,0)` is `0.03`, not `0`. -/
theorem c1_counterexample :
    brightness_term 0 ≠ 0 ∧ brightness_term (9/10) ≠ 0 ∧
    brightness_term 0 = 1/10 ∧ brightness_term (9/10) = 1/10 ∧
    color_score (0, 0, 0) = 3/100 := by
  have h0 : brightness_term 0 = 1/10 := by
    rw [brightness_term_of_le 0 (by norm_num) (by norm_num)]; norm_num
  have h9 : brightness_term (9/10) = 1/10 := by
    rw [brightness_term_of_mid (9/10) (by norm_num) (by norm_num)]; norm_num
  refine ⟨by rw [h0]; norm_num, by rw [h9]; norm_num, h0, h9, ?_⟩
  rw [color_score, hsv_s_black, hsv_v_black, h0]
  norm_num

/-- C1 (amended): `color_score` is `0.7 * s + 0.3 * brightness_term v`
with `brightness_term v = max(1 - |v - 0.45| * 2, 0)`; the term peaks at
`1.0` for `v = 0.45`, equals `0.1` (not `0`) at `v = 0` and at `v = 0.9`,
grows linearly with slope `2` on `[0, 0.45]`, decays linearly with slope
`2` on `[0.45, 0.95]`, and is `0` exactly from `v = 0.95` on. -/
theorem c1_theorem :
    (∀ p : RGB, color_score p = hsv_s p * (7/10) + brightness_term (hsv_v p) * (3/10)) ∧
    brightness_term (45/100) = 1 ∧
    brightness_term 0 = 1/10 ∧
    brightness_term (9/10) = 1/10 ∧
    (∀ v : ℚ, 0 ≤ v → v ≤ 45/100 → brightness_term v = 1/10 + 2 * v) ∧
    (∀ v : ℚ, 45/100 ≤ v → v ≤ 19/20 → brightness_term v = 19/10 - 2 * v) ∧
    (∀ v : ℚ, 19/20 ≤ v → brightness_term v = 0) := by
  refine ⟨fun p => rfl, ?_, ?_, ?_, brightness_term_of_le,
    brightness_term_of_mid, brightness_term_of_ge⟩
  · rw [brightness_term_of_le (45/100) (by norm_num) (by norm_num)]; norm_num
  · rw [brightness_term_of_le 0 (by norm_num) (by norm_num)]; norm_num
  · rw [brightness_term_of_mid (9/10) (by norm_num) (by norm_num)]; norm_num

/-- C1 witness: the amended claim evaluated at the concrete values
`v = 1/4`, `v = 1/2` and `v = 1`. -/
theorem c1_witness :
    brightness_term (1/4) = 1/10 + 2 * (1/4) ∧
    brightness_term (1/2) = 19/10 - 2 * (1/2) ∧
    brightness_term 1 = 0 :=
  ⟨c1_theorem.2.2.2.2.1 (1/4) (by norm_num) (by norm_num),
   c1_theorem.2.2.2.2.2.1 (1/2) (by norm_num) (by norm_num),
   c1_theorem.2.2.2.2.2.2 1 (by norm_num)⟩

/-- C4: every byte-range channel value is quantized to one of the 8
bucket midpoints, and moves by at most 16. -/
theorem c4_theorem :
    ∀ c : ℕ, c < 256 →
      (bucketChannel c = 16 ∨ bucketChannel c = 48 ∨ bucketChannel c = 80 ∨
       bucketChannel c = 112 ∨ bucketChannel c = 144 ∨ bucketChannel c = 176 ∨
       bucketChannel c = 208 ∨ bucketChannel c = 240) ∧
      bucketChannel c ≤ c + 16 ∧ c ≤ bucketChannel c + 16 := by
  intro c hc
  unfold bucketChannel
  omega

/-- C4 witness: the quantization bounds at the concrete channel value 200. -/
theorem c4_witness :
    (bucketChannel 200 = 16 ∨ bucketChannel 200 = 48 ∨ bucketChannel 200 = 80 ∨
     bucketChannel 200 = 112 ∨ bucketChannel 200 = 144 ∨ bucketChannel 200 = 176 ∨
     bucketChannel 200 = 208 ∨ bucketChannel 200 = 240) ∧
    bucketChannel 200 ≤ 200 + 16 ∧ 200 ≤ bucketChannel 200 + 16 :=
  c4_theorem 200 (by decide)

/-- C5: the filter keeps a color exactly when its channel sum is strictly
between 80 and 660; in particular sums 79 and 80 are excluded, 81 and 659
included, 660 and 661 excluded. -/
theorem c5_theorem :
    (∀ p : RGB, spineFilter p = true ↔ (80 < sumRGB p ∧ sumRGB p < 660)) ∧
    spineFilter (79, 0, 0) = false ∧ spineFilter (80, 0, 0) = false ∧
    spineFilter (81, 0, 0) = true ∧ spineFilter (659, 0, 0) = true ∧
    spineFilter (660, 0, 0) = false ∧ spineFilter (661, 0, 0) = false := by
  refine ⟨fun p => ?_, by decide, by decide, by decide, by decide, by decide, by decide⟩
  simp [spineFilter]

/-- C9: quantization is idempotent, so every bucket midpoint is a fixed
point of `bucket`. -/
theorem c9_theorem : ∀ p : RGB, bucket (bucket p) = bucket p := by
  intro p
  simp only [bucket, bucketChannel, Prod.mk.injEq]
  omega

/-! Lemmas about the candidate pipeline. -/

lemma filter_replicate (q : RGB → Bool) (n : ℕ) (x : RGB) :
    (List.replicate n x).filter q = if q x then List.replicate n x else [] := by
  induction n with
  | zero => simp
  | succ m ih =>
    rw [List.replicate_succ, List.filter_cons, ih]
    cases hq : q x <;> simp [hq, List.replicate_succ]

lemma chosenBuckets_eq (pixels : List RGB) :
    chosenBuckets pixels =
      if ((pixels.map bucket).filter spineFilter).isEmpty then pixels.map bucket
      else (pixels.map bucket).filter spineFilter := rfl

lemma chosenBuckets_replicate (n : ℕ) (p : RGB) :
    chosenBuckets (List.replicate n p) = List.replicate n (bucket p) := by
  rw [chosenBuckets_eq, List.map_replicate, filter_replicate]
  cases hq : spineFilter (bucket p) <;> cases n <;> simp [hq, List.replicate_succ]

lemma dedupFirstAux_replicate_of_mem (x : RGB) (seen : List RGB) (h : x ∈ seen) :
    ∀ m : ℕ, dedupFirstAux seen (List.replicate m x) = [] := by
  intro m
  induction m with
  | zero => simp [dedupFirstAux]
  | succ k ih => rw [List.replicate_succ]; simp [dedupFirstAux, h, ih]

lemma dedupFirst_replicate (n : ℕ) (x : RGB) (h : n ≠ 0) :
    dedupFirst (List.replicate n x) = [x] := by
  cases n with
  | zero => exact absurd rfl h
  | succ m =>
    rw [List.replicate_succ]
    simp only [dedupFirst, dedupFirstAux, List.not_mem_nil, if_false]
    rw [dedupFirstAux_replicate_of_mem x [x] (by simp)]

lemma get_dominant_color_replicate (n : ℕ) (p : RGB) (h : n ≠ 0) :
    get_dominant_color (List.replicate n p) = some (toHexColor (bucket p)) := by
  unfold get_dominant_color topColors mostCommon
  rw [chosenBuckets_replicate, dedupFirst_replicate n (bucket p) h]
  simp [sortByCountDesc, insertByCountDesc, maxByScore]

lemma insertByCountDesc_ne_nil (cnt : RGB → ℕ) (x : RGB) (l : List RGB) :
    insertByCountDesc cnt x l ≠ [] := by
  cases l with
  | nil => simp [insertByCountDesc]
  | cons y ys =>
    unfold insertByCountDesc
    split <;> simp

lemma sortByCountDesc_ne_nil (cnt : RGB → ℕ) (l : List RGB) (h : l ≠ []) :
    sortByCountDesc cnt l ≠ [] := by
  cases l with
  | nil => exact absurd rfl h
  | cons x xs => exact insertByCountDesc_ne_nil cnt x (sortByCountDesc cnt xs)

lemma dedupFirst_ne_nil (l : List RGB) (h : l ≠ []) : dedupFirst l ≠ [] := by
  cases l with
  | nil => exact absurd rfl h
  | cons x xs => simp [dedupFirst, dedupFirstAux]

lemma chosenBuckets_ne_nil (pixels : List RGB) (h : pixels ≠ []) :
    chosenBuckets pixels ≠ [] := by
  rw [chosenBuckets_eq]
  split
  · simpa using h
  · rename_i hne
    simpa [List.isEmpty_iff] using hne

lemma topColors_ne_nil (pixels : List RGB) (h : pixels ≠ []) :
    topColors pixels ≠ [] := by
  unfold topColors mostCommon
  have h1 := sortByCountDesc_ne_nil (fun x => (chosenBuckets pixels).count x)
    (dedupFirst (chosenBuckets pixels))
    (dedupFirst_ne_nil _ (chosenBuckets_ne_nil pixels h))
  cases he : sortByCountDesc (fun x => (chosenBuckets pixels).count x)
      (dedupFirst (chosenBuckets pixels)) with
  | nil => exact absurd he h1
  | cons y ys => simp [he]

lemma maxByScore_isSome (l : List RGB) (h : l ≠ []) :
    (maxByScore l).isSome = true := by
  cases l with
  | nil => exact absurd rfl h
  | cons x xs => simp [maxByScore]

/-- C6: a non-empty pixel grid always yields a color — the filter
fallback keeps the candidate list non-empty, the top-8 list is non-empty,
and the max-score selection succeeds; concretely, an all-black 80x80 image
has every bucket removed by the filter, yet still returns a color
(the hex of the black bucket midpoint `(16,16,16)`). -/
theorem c6_theorem :
    (∀ pixels : List RGB, pixels ≠ [] →
      chosenBuckets pixels ≠ [] ∧ topColors pixels ≠ [] ∧
      (get_dominant_color pixels).isSome = true) ∧
    ((List.replicate 6400 (0, 0, 0)).map bucket).filter spineFilter = [] ∧
    get_dominant_color (List.replicate 6400 (0, 0, 0)) = some "#101010" := by
  refine ⟨fun pixels h => ⟨chosenBuckets_ne_nil pixels h, topColors_ne_nil pixels h, ?_⟩,
    ?_, ?_⟩
  · have h1 := maxByScore_isSome _ (topColors_ne_nil pixels h)
    unfold get_dominant_color
    cases hm : maxByScore (topColors pixels) with
    | none => rw [hm] at h1; simp at h1
    | some x => simp [hm]
  · rw [List.map_replicate, filter_replicate]
    norm_num [spineFilter, sumRGB, bucket, bucketChannel]
  · rw [get_dominant_color_replicate 6400 (0, 0, 0) (by norm_num)]
    rfl

/-- C6 witness: the general part of C6 applied to the concrete non-empty
all-black single-pixel image. -/
theorem c6_witness :
    chosenBuckets [(0, 0, 0)] ≠ [] ∧ topColors [(0, 0, 0)] ≠ [] ∧
    (get_dominant_color [(0, 0, 0)]).isSome = true :=
  c6_theorem.1 [(0, 0, 0)] (by decide)

/-- The concrete catalog of the end-to-end example: one record with a
title and an image URL. -/
def bookA : Book :=
  fun k => if k = "title" then some "A" else
    if k = "image_url" then some "http://x/a.png" else none

/-- The decoded, resized 80x80 pixel grid of a solid RGB (200,40,40)
image. -/
def solidRedPixels : List RGB := List.replicate 6400 (200, 40, 40)

/-- Extraction for the end-to-end example: every URL decodes to the solid
red image. -/
def extractSolidRed : String → Except String String :=
  fun _ => extractFromImage solidRedPixels

lemma get_dominant_color_solidRed :
    get_dominant_color solidRedPixels = some "#d03030" := by
  rw [solidRedPixels, get_dominant_color_replicate 6400 (200, 40, 40) (by norm_num)]
  rfl

/-- C7: on a one-record catalog whose image is solid RGB (200,40,40), the
updater writes `cover_color = "#d03030"` (the hex of the quantized bucket
midpoint (208,48,48)). -/
theorem c7_theorem :
    bucket (200, 40, 40) = (208, 48, 48) ∧
    get_dominant_color solidRedPixels = some "#d03030" ∧
    (runUpdater extractSolidRed [bookA]).1.length = 1 ∧
    ((runUpdater extractSolidRed [bookA]).1.getD 0 (fun _ => none)) "cover_color"
      = some "#d03030" := by
  refine ⟨by decide, get_dominant_color_solidRed, ?_, ?_⟩
  · rfl
  · have hx : extractSolidRed "http://x/a.png" = Except.ok "#d03030" := by
      unfold extractSolidRed extractFromImage
      rw [get_dominant_color_solidRed]
    show ((stepBook extractSolidRed bookA).1) "cover_color" = some "#d03030"
    unfold stepBook
    have hurl : bookA "image_url" = some "http://x/a.png" := by decide
    rw [hurl]
    simp only [hx]
    simp [setField]

/-! Hex output format. -/

/-- The output format claimed by the spec: a hash sign followed by exactly
six lowercase hexadecimal digit characters. -/
def isHexColorString (s : String) : Bool :=
  match s.data with
  | '#' :: cs => (cs.length == 6) && cs.all (fun c => "0123456789abcdef".data.contains c)
  | _ => false

lemma hexDigit_mem :
    ∀ k : ℕ, k < 16 → "0123456789abcdef".data.contains (hexDigit k) = true := by
  decide

lemma isHexColorString_mk (cs : List Char) :
    isHexColorString (String.mk ('#' :: cs)) =
      ((cs.length == 6) && cs.all (fun c => "0123456789abcdef".data.contains c)) :=
  rfl

lemma isHex_toHexColor (p : RGB) (h1 : p.1 < 256) (h2 : p.2.1 < 256)
    (h3 : p.2.2 < 256) : isHexColorString (toHexColor p) = true := by
  have d1 := hexDigit_mem (p.1 / 16) (by omega)
  have d2 := hexDigit_mem (p.1 % 16) (by omega)
  have d3 := hexDigit_mem (p.2.1 / 16) (by omega)
  have d4 := hexDigit_mem (p.2.1 % 16) (by omega)
  have d5 := hexDigit_mem (p.2.2 / 16) (by omega)
  have d6 := hexDigit_mem (p.2.2 % 16) (by omega)
  rw [toHexColor, isHexColorString_mk]
  simp only [byteHexChars, List.cons_append, List.nil_append, List.all_cons,
    List.all_nil, List.length_cons, List.length_nil, d1, d2, d3, d4, d5, d6,
    Bool.and_true, Bool.true_and]
  decide

lemma foldl_best_mem (xs : List RGB) :
    ∀ a : RGB,
      xs.foldl (fun b y => if color_score b < color_score y then y else b) a ∈ a :: xs := by
  induction xs with
  | nil => intro a; simp
  | cons y ys ih =>
    intro a
    simp only [List.foldl_cons]
    by_cases hc : color_score a < color_score y
    · rw [if_pos hc]
      exact List.mem_cons_of_mem _ (ih y)
    · rw [if_neg hc]
      rcases List.mem_cons.mp (ih a) with h1 | h1
      · rw [h1]
        exact List.mem_cons_self _ _
      · exact List.mem_cons_of_mem _ (List.mem_cons_of_mem _ h1)

lemma maxByScore_mem (l : List RGB) (x : RGB) (h : maxByScore l = some x) :
    x ∈ l := by
  cases l with
  | nil => simp [maxByScore] at h
  | cons a xs =>
    simp only [maxByScore, Option.some.injEq] at h
    exact h ▸ foldl_best_mem xs a


lemma mem_insertByCountDesc (cnt : RGB → ℕ) (x y : RGB) (l : List RGB)
    (h : y ∈ insertByCountDesc cnt x l) : y = x ∨ y ∈ l := by
  induction l with
  | nil => simpa [insertByCountDesc] using h
  | cons z zs ih =>
    unfold insertByCountDesc at h
    split at h
    · rcases List.mem_cons.mp h with h1 | h1
      · exact Or.inr (h1 ▸ List.mem_cons_self _ _)
      · rcases ih h1 with h2 | h2
        · exact Or.inl h2
        · exact Or.inr (List.mem_cons_of_mem _ h2)
    · rcases List.mem_cons.mp h with h1 | h1
      · exact Or.inl h1
      · exact Or.inr h1

lemma mem_sortByCountDesc (cnt : RGB → ℕ) (y : RGB) (l : List RGB)
    (h : y ∈ sortByCountDesc cnt l) : y ∈ l := by
  induction l with
  | nil => simp [sortByCountDesc] at h
  | cons x xs ih =>
    unfold sortByCountDesc at h
    rcases mem_insertByCountDesc _ _ _ _ h with h1 | h1
    · exact h1 ▸ List.mem_cons_self _ _
    · exact List.mem_cons_of_mem _ (ih h1)

lemma mem_dedupFirstAux (y : RGB) (l : List RGB) :
    ∀ seen : List RGB, y ∈ dedupFirstAux seen l → y ∈ l := by
  induction l with
  | nil => intro seen h; simp [dedupFirstAux] at h
  | cons x xs ih =>
    intro seen h
    unfold dedupFirstAux at h
    split at h
    · exact List.mem_cons_of_mem _ (ih seen h)
    · rcases List.mem_cons.mp h with h1 | h1
      · exact h1 ▸ List.mem_cons_self _ _
      · exact List.mem_cons_of_mem _ (ih (x :: seen) h1)

lemma mem_chosenBuckets (q : RGB) (pixels : List RGB)
    (h : q ∈ chosenBuckets pixels) : ∃ p ∈ pixels, q = bucket p := by
  rw [chosenBuckets_eq] at h
  have hmap : q ∈ pixels.map bucket → ∃ p ∈ pixels, q = bucket p := by
    intro hm
    rcases List.mem_map.mp hm with ⟨p, hp, he⟩
    exact ⟨p, hp, he.symm⟩
  split at h
  · exact hmap h
  · exact hmap (List.mem_of_mem_filter h)

/-- C8: every string returned by a successful extraction on a byte-valued
pixel grid is a hash sign followed by exactly six lowercase hexadecimal
digits. -/
theorem c8_theorem :
    ∀ (pixels : List RGB) (s : String),
      (∀ p ∈ pixels, p.1 < 256 ∧ p.2.1 < 256 ∧ p.2.2 < 256) →
      get_dominant_color pixels = some s → isHexColorString s = true := by
  intro pixels s hb h
  unfold get_dominant_color at h
  cases hm : maxByScore (topColors pixels) with
  | none => rw [hm] at h; simp at h
  | some q =>
    rw [hm] at h
    simp only [Option.map_some', Option.some.injEq] at h
    have hq : q ∈ chosenBuckets pixels := by
      have h1 := maxByScore_mem _ _ hm
      unfold topColors mostCommon at h1
      exact mem_dedupFirstAux _ _ _
        (mem_sortByCountDesc _ _ _ (List.mem_of_mem_take h1))
    rcases mem_chosenBuckets q pixels hq with ⟨p, hp, he⟩
    rcases hb p hp with ⟨hp1, hp2, hp3⟩
    subst he
    subst h
    have hc : ∀ c : ℕ, c < 256 → bucketChannel c < 256 := by
      intro c hc
      unfold bucketChannel
      omega
    exact isHex_toHexColor (bucket p) (hc _ hp1) (hc _ hp2) (hc _ hp3)

/-- C8 witness: the format property at the concrete one-pixel solid red
image, whose extraction returns `"#d03030"`. -/
theorem c8_witness : isHexColorString "#d03030" = true :=
  c8_theorem [(200, 40, 40)] "#d03030" (by decide) (by decide)

/-! Lemmas about the catalog updater. -/

lemma stepBook_fst_apply {ε : Type} (extract : String → Except ε String)
    (b : Book) (k : String) (hk : k ≠ "cover_color") :
    (stepBook extract b).1 k = b k := by
  cases hurl : b "image_url" with
  | none => simp [stepBook, hurl]
  | some url =>
    by_cases he : url = ""
    · simp [stepBook, hurl, he]
    · cases hex : extract url with
      | ok c => simp [stepBook, hurl, he, hex, setField, hk]
      | error e => simp [stepBook, hurl, he, hex]

lemma stepBook_noImage {ε : Type} (extract : String → Except ε String)
    (b : Book) (h : b "image_url" = none ∨ b "image_url" = some "") :
    stepBook extract b = (b, false) := by
  rcases h with h | h <;> simp [stepBook, h]

lemma stepBook_error {ε : Type} (extract : String → Except ε String)
    (b : Book) (url : String) (e : ε) (h1 : b "image_url" = some url)
    (h2 : url ≠ "") (h3 : extract url = Except.error e) :
    stepBook extract b = (b, false) := by
  simp [stepBook, h1, h2, h3]

lemma runUpdater_fst {ε : Type} (extract : String → Except ε String)
    (books : List Book) :
    (runUpdater extract books).1 = books.map (fun b => (stepBook extract b).1) := by
  induction books with
  | nil => rfl
  | cons b rest ih => simp [runUpdater, ih]

lemma runUpdater_snd {ε : Type} (extract : String → Except ε String)
    (books : List Book) :
    (runUpdater extract books).2 = books.countP (fun b => recordUpdated extract b) := by
  induction books with
  | nil => rfl
  | cons b rest ih =>
    rw [List.countP_cons]
    simp only [runUpdater, ih, recordUpdated]
    exact Nat.add_comm _ _

/-- C2: the updater preserves the number and order of records, each output
record agrees with its input record on every field other than
`cover_color`, and a record whose image reference is absent or empty is
passed through unchanged. -/
theorem c2_theorem :
    ∀ (ε : Type) (extract : String → Except ε String) (books : List Book),
      (runUpdater extract books).1.length = books.length ∧
      ∀ (i : ℕ) (b b' : Book), books.get? i = some b →
        (runUpdater extract books).1.get? i = some b' →
        (∀ k : String, k ≠ "cover_color" → b' k = b k) ∧
        ((b "image_url" = none ∨ b "image_url" = some "") → b' = b) := by
  intro ε extract books
  rw [runUpdater_fst]
  refine ⟨by rw [List.length_map], ?_⟩
  intro i b b' hb hb'
  rw [List.get?_eq_getElem?, List.getElem?_map] at hb'
  rw [List.get?_eq_getElem?] at hb
  rw [hb] at hb'
  simp only [Option.map_some', Option.some.injEq] at hb'
  subst hb'
  refine ⟨fun k hk => stepBook_fst_apply extract b k hk, fun h => ?_⟩
  rw [stepBook_noImage extract b h]

/-- C2 witness: the frame property applied to the first record of a
concrete catalog (a record with a title and no other fields). -/
theorem c2_witness :
    (stepBook (fun _ : String => (Except.ok "#336699" : Except String String))
      (fun k => if k = "title" then some "T" else none)).1 "title" = some "T" :=
  ((c2_theorem String (fun _ => Except.ok "#336699")
    [fun k => if k = "title" then some "T" else none]).2 0 _ _ rfl rfl).1
    "title" (by decide)

/-- A concrete record with a title and an image URL, for the partial
failure example. -/
def mkBook (t u : String) : Book :=
  fun k => if k = "title" then some t else if k = "image_url" then some u else none

/-- The 3-record catalog of the partial failure example. -/
def books3 : List Book := [mkBook "A" "u1", mkBook "B" "u2", mkBook "C" "u3"]

/-- Extraction for the partial failure example: fetching the second URL
raises, the others succeed. -/
def extract3 : String → Except String String :=
  fun u => if u = "u2" then Except.error "boom" else Except.ok "#336699"

/-- C3: the final updated count equals the number of records whose
extraction succeeded, and in the concrete 3-record catalog whose 2nd fetch
raises, all 3 records are written, `cover_color` is set on records 1 and 3
and absent on record 2, and the count is 2 (of 3). -/
theorem c3_theorem :
    (∀ (ε : Type) (extract : String → Except ε String) (books : List Book),
      (runUpdater extract books).2 = books.countP (fun b => recordUpdated extract b)) ∧
    (runUpdater extract3 books3).1.length = 3 ∧
    ((runUpdater extract3 books3).1.getD 0 (fun _ => none)) "cover_color" = some "#336699" ∧
    ((runUpdater extract3 books3).1.getD 1 (fun _ => none)) "cover_color" = none ∧
    ((runUpdater extract3 books3).1.getD 2 (fun _ => none)) "cover_color" = some "#336699" ∧
    (runUpdater extract3 books3).2 = 2 := by
  refine ⟨fun ε extract books => runUpdater_snd extract books,
    rfl, ?_, ?_, ?_, rfl⟩ <;> rfl

/-- C10: for an arbitrary error type (any exception class) and an
arbitrary failing extractor, the updater still emits one output record per
input record (the final write is never prevented), and a record whose
extraction raises any error at all is left completely unchanged. -/
theorem c10_theorem :
    ∀ (ε : Type) (extract : String → Except ε String) (books : List Book),
      (runUpdater extract books).1.length = books.length ∧
      ∀ (b : Book) (url : String) (e : ε), b "image_url" = some url →
        url ≠ "" → extract url = Except.error e →
        stepBook extract b = (b, false) := by
  intro ε extract books
  refine ⟨?_, fun b url e h1 h2 h3 => stepBook_error extract b url e h1 h2 h3⟩
  rw [runUpdater_fst, List.length_map]

/-- C10 witness: a concrete record whose extraction raises is passed
through unchanged by the loop body. -/
theorem c10_witness :
    stepBook (fun _ : String => (Except.error "boom" : Except String String))
      (mkBook "A" "u1") = (mkBook "A" "u1", false) :=
  (c10_theorem String (fun _ => Except.error "boom") [mkBook "A" "u1"]).2
    (mkBook "A" "u1") "u1" "boom" rfl (by decide) rfl

end ExtractCoverColors
